import Mathlib

/-!
Verification of the gfa authentication/authorization gateway subsystem.

Shallow embedding of:
* utils/router (Matcher.Match, RequestMatcher, genMatchKey) — whitelist pattern matcher;
* middlewares/security/once_token (GenerateToken, ValidateAndConsumeToken, middleware handler);
* middlewares/security/jwt.go (extractToken, ParseToken, GenerateToken, Valid, checkAndRefresh);
* middlewares/security/api_key.go (NewApiKeyValidator, GetApiKey);
* middlewares/security/security.go (Security handler, PermitRoute).

Strings that are manipulated index-wise (the matcher's composite keys) are
modelled as List Char; all inputs of interest are ASCII, where Go's byte
indices coincide with character indices.
-/

namespace Gfa

/-! ## Pattern matcher (utils/router, Matcher.Match) -/

abbrev Route := List Char

/-- Go strings.LastIndex for a single character: index of the last
occurrence, none when absent. -/
def lastIndex : List Char → Char → Option Nat
  | [], _ => none
  | a :: as, c =>
    match lastIndex as c with
    | some i => some (i + 1)
    | none => if a = c then some 0 else none

theorem lastIndex_lt {s : List Char} {c : Char} {i : Nat}
    (h : lastIndex s c = some i) : i < s.length := by
  induction s generalizing i with
  | nil => simp [lastIndex] at h
  | cons a as ih =>
    simp only [lastIndex] at h
    cases hr : lastIndex as c with
    | some j =>
      rw [hr] at h
      cases h
      exact Nat.succ_lt_succ (ih hr)
    | none =>
      rw [hr] at h
      by_cases hac : a = c
      · rw [if_pos hac] at h
        cases h
        simp
      · simp [hac] at h

theorem lastIndex_getElem {s : List Char} {c : Char} {i : Nat}
    (h : lastIndex s c = some i) : s[i]? = some c := by
  induction s generalizing i with
  | nil => simp [lastIndex] at h
  | cons a as ih =>
    simp only [lastIndex] at h
    cases hr : lastIndex as c with
    | some j =>
      rw [hr] at h
      cases h
      simpa using ih hr
    | none =>
      rw [hr] at h
      by_cases hac : a = c
      · rw [if_pos hac] at h
        cases h
        simp [hac]
      · simp [hac] at h

theorem lastIndex_none_getElem {s : List Char} {c : Char}
    (h : lastIndex s c = none) : ∀ j : Nat, s[j]? ≠ some c := by
  induction s with
  | nil => intro j; simp
  | cons a as ih =>
    simp only [lastIndex] at h
    cases hr : lastIndex as c with
    | some k => rw [hr] at h; cases h
    | none =>
      rw [hr] at h
      by_cases hac : a = c
      · simp [hac] at h
      · intro j
        cases j with
        | zero => simpa using hac
        | succ m => simpa using ih hr m

theorem lastIndex_last {s : List Char} {c : Char} {i : Nat}
    (h : lastIndex s c = some i) : ∀ j : Nat, i < j → s[j]? ≠ some c := by
  induction s generalizing i with
  | nil => simp [lastIndex] at h
  | cons a as ih =>
    simp only [lastIndex] at h
    cases hr : lastIndex as c with
    | some k =>
      rw [hr] at h
      cases h
      intro j hj
      cases j with
      | zero => omega
      | succ m =>
        simp only [List.getElem?_cons_succ]
        exact ih hr m (Nat.lt_of_succ_lt_succ hj)
    | none =>
      rw [hr] at h
      by_cases hac : a = c
      · rw [if_pos hac] at h
        cases h
        intro j hj
        cases j with
        | zero => omega
        | succ m =>
          simp only [List.getElem?_cons_succ]
          exact lastIndex_none_getElem hr m
      · simp [hac] at h

/-- The wildcard-probing loop of Matcher.Match (utils/router): repeatedly cut
the composite key at its last '/' and probe the cut prefix followed by "/\\*";
when no '/' remains, probe the bare "*" key.  Note that the cut operates on
the whole composite key, so the "#method" suffix disappears with the first
cut.  The Go loop terminates because every cut strictly shortens the key; the
explicit fuel argument makes that bound structural, and Match below supplies
fuel = uri.length, which the lemma matchLoop_eq_true_iff shows is enough (the
fuel-exhausted branch is unreachable). -/
def matchLoop (wl : List Route) : List Char → Nat → Bool
  | uri, fuel =>
    match lastIndex uri '/' with
    | some i =>
      if wl.contains (uri.take i ++ ['/', '*']) then true
      else
        match fuel with
        | 0 => false
        | f + 1 => matchLoop wl (uri.take i) f
    | none => wl.contains ['*']

/-- Matcher.Match (utils/router/match.go): exact lookup first, then the
wildcard-probing loop. -/
def Match (wl : List Route) (uri : List Char) : Bool :=
  if uri = [] then false
  else if wl.contains uri then true
  else matchLoop wl uri uri.length

theorem matchLoop_cons {wl : List Route} {uri : List Char} {i f : Nat}
    (h : lastIndex uri '/' = some i) :
    matchLoop wl uri (f + 1) =
      if wl.contains (uri.take i ++ ['/', '*']) then true
      else matchLoop wl (uri.take i) f := by
  conv_lhs => rw [matchLoop]
  rw [h]

theorem matchLoop_noslash {wl : List Route} {uri : List Char} {f : Nat}
    (h : lastIndex uri '/' = none) :
    matchLoop wl uri f = wl.contains ['*'] := by
  conv_lhs => rw [matchLoop]
  rw [h]

theorem matchLoop_eq_true_iff (wl : List Route) :
    ∀ (fuel : Nat) (uri : List Char), uri.length ≤ fuel →
      (matchLoop wl uri fuel = true ↔
        (∃ p : Nat, uri[p]? = some '/' ∧
          wl.contains (uri.take p ++ ['/', '*']) = true) ∨
        wl.contains ['*'] = true) := by
  intro fuel
  induction fuel with
  | zero =>
    intro uri hlen
    have huri : uri = [] := List.length_eq_zero.mp (Nat.le_zero.mp hlen)
    subst huri
    rw [matchLoop]
    constructor
    · intro hstar
      exact Or.inr hstar
    · rintro (⟨p, hp, _⟩ | hstar)
      · simp at hp
      · exact hstar
  | succ f ihf =>
    intro uri hlen
    cases h : lastIndex uri '/' with
    | none =>
      rw [matchLoop_noslash h]
      constructor
      · intro hstar
        exact Or.inr hstar
      · rintro (⟨p, hp, _⟩ | hstar)
        · exact absurd hp (lastIndex_none_getElem h p)
        · exact hstar
    | some i =>
      rw [matchLoop_cons h]
      have hlt := lastIndex_lt h
      have hni : (uri.take i).length ≤ f := by
        simp only [List.length_take]
        omega
      by_cases hc : wl.contains (uri.take i ++ ['/', '*']) = true
      · rw [if_pos hc]
        constructor
        · intro _
          exact Or.inl ⟨i, lastIndex_getElem h, hc⟩
        · intro _
          rfl
      · rw [if_neg hc]
        rw [ihf (uri.take i) hni]
        constructor
        · rintro (⟨p, hp, hmem⟩ | hstar)
          · left
            have hpi : p < i := by
              by_contra hge
              push_neg at hge
              rw [List.getElem?_take, if_neg (Nat.not_lt.mpr hge)] at hp
              cases hp
            refine ⟨p, ?_, ?_⟩
            · rw [List.getElem?_take, if_pos hpi] at hp
              exact hp
            · rwa [List.take_take, Nat.min_eq_left (Nat.le_of_lt hpi)] at hmem
          · exact Or.inr hstar
        · rintro (⟨p, hp, hmem⟩ | hstar)
          · have hple : p ≤ i := by
              by_contra hgt
              push_neg at hgt
              exact lastIndex_last h p hgt hp
            have hpi : p < i := by
              rcases Nat.lt_or_eq_of_le hple with hlt2 | heq
              · exact hlt2
              · subst heq
                rw [hmem] at hc
                exact absurd rfl hc
            left
            refine ⟨p, ?_, ?_⟩
            · rwa [List.getElem?_take, if_pos hpi]
            · rwa [List.take_take, Nat.min_eq_left (Nat.le_of_lt hpi)]
          · exact Or.inr hstar

/-- genMatchKey (utils/router/request.go): the composite key "uri#method". -/
def genMatchKey (uri method : String) : Route :=
  uri.data ++ '#' :: method.data

/-- RequestMatcher.Match (utils/router/request.go): match the composite key. -/
def rmMatch (wl : List Route) (uri method : String) : Bool :=
  Match wl (genMatchKey uri method)

/-- The matching predicate exactly as the spec sentence describes it (claim
C1): exact key, or a wildcard key "strippedPath/\*#method" for a stripped
path obtained by cutting trailing slash-separated segments, or the bare
"\*#method" key.  This is the spec-side definition, to be compared with
Match as embedded from the source. -/
def claimedMatch (wl : List Route) (path method : List Char) : Bool :=
  wl.contains (path ++ '#' :: method) ||
  (List.range (path.length + 1)).any
    (fun p => decide (path[p]? = some '/') &&
      wl.contains (path.take p ++ '/' :: '*' :: '#' :: method)) ||
  wl.contains ('*' :: '#' :: method)

/-- C1 counterexample: with whitelist {"/a/\*#GET"} — registered exactly as
RequestMatcher.AddRoute would store a permitted wildcard route — the claimed
algorithm accepts path "/a/b" with method "GET", but Match on the composite
key returns false, because the code cuts the composite key (dropping the
"#GET" suffix together with the last path segment) and probes "/a/\*", "/\*"
and "*", never "/a/\*#GET".  Conversely a whitelist {"/a/\*"} (no method
suffix) is accepted by the code but not by the claimed algorithm. -/
theorem Match_counterexample_C1 :
    claimedMatch [("/a/*#GET").data] ("/a/b").data ("GET").data = true ∧
    Match [("/a/*#GET").data] (genMatchKey "/a/b" "GET") = false ∧
    Match [("/a/*").data] (genMatchKey "/a/b" "GET") = true ∧
    claimedMatch [("/a/*").data] ("/a/b").data ("GET").data = false := by
  decide

/-- C1 (amended): Match on a composite key uri returns true exactly when the
key is nonempty and the whitelist contains the key itself, or contains
(uri cut just before one of its '/' characters) ++ "/\*" — cutting the whole
composite key, so the "#method" suffix is dropped from every wildcard
probe — or contains the bare key "*". -/
theorem Match_eq_true_iff (wl : List Route) (uri : List Char) :
    Match wl uri = true ↔
      uri ≠ [] ∧
      (wl.contains uri = true ∨
        (∃ p : Nat, uri[p]? = some '/' ∧
          wl.contains (uri.take p ++ ['/', '*']) = true) ∨
        wl.contains ['*'] = true) := by
  unfold Match
  by_cases hnil : uri = []
  · simp [hnil]
  · rw [if_neg hnil]
    by_cases hex : wl.contains uri = true
    · rw [if_pos hex]
      constructor
      · intro _
        exact ⟨hnil, Or.inl hex⟩
      · intro _
        rfl
    · rw [if_neg hex]
      rw [matchLoop_eq_true_iff wl uri.length uri (Nat.le_refl _)]
      constructor
      · intro hor
        exact ⟨hnil, Or.inr hor⟩
      · rintro ⟨_, (habs | hor)⟩
        · exact absurd habs hex
        · exact hor

/-! ## Single-use token store (middlewares/security/once_token)

The Redis store is modelled as an association list; Set prepends, Get
returns the first binding, Del removes every binding of the key.  TTL-based
expiry is not modelled (no clock is involved in the claims); an expired entry
is simply an absent one.  The store itself never fails, so the Go branches
that surface Redis transport errors are unreachable in the model. -/

abbrev Store := List (String × String)

def storeGet (s : Store) (k : String) : Option String :=
  (s.find? (fun p => p.1 == k)).map (fun p => p.2)

def storeDel (s : Store) (k : String) : Store :=
  s.filter (fun p => !(p.1 == k))

def storeSet (s : Store) (k v : String) : Store :=
  (k, v) :: s

theorem storeGet_set_self (s : Store) (k v : String) :
    storeGet (storeSet s k v) k = some v := by
  simp [storeGet, storeSet, List.find?]

theorem storeGet_del_self (s : Store) (k : String) :
    storeGet (storeDel s k) k = none := by
  induction s with
  | nil => rfl
  | cons p rest ih =>
    by_cases hk : p.1 == k
    · simp only [storeDel, List.filter, hk] at ih ⊢
      exact ih
    · simp only [storeDel, List.filter, hk] at ih ⊢
      simp only [storeGet, List.find?, hk] at ih ⊢
      exact ih

/-- Errors of the once-token validator (once_token.go); Redis transport
errors are not modelled. -/
inductive OTErr
  | invalid
  | expired
  | pathMismatch
  | notFound
  deriving DecidableEq

/-- A shared-store operation performed by ValidateAndConsumeToken, recorded
so that frame claims ("no read, no delete") are provable. -/
inductive StoreOp
  | get (k : String)
  | del (k : String)
  deriving DecidableEq

structure ConsumeOut where
  result : Except OTErr String
  store : Store
  ops : List StoreOp

/-- OnceTokenValidator.ValidateAndConsumeToken (once_token.go lines
198-230): reject an empty token outright; Get prefix+token (absent means
expired/consumed); a non-empty stored path that differs from a non-empty
current path is a mismatch and nothing is deleted; otherwise delete the
entry and return the stored path. -/
def ValidateAndConsumeToken (keyPre : String) (s : Store)
    (token currentPath : String) : ConsumeOut :=
  if token = "" then ⟨.error .invalid, s, []⟩
  else
    let key := keyPre ++ token
    match storeGet s key with
    | none => ⟨.error .expired, s, [.get key]⟩
    | some storedPath =>
      if storedPath ≠ "" ∧ currentPath ≠ "" ∧ storedPath ≠ currentPath then
        ⟨.error .pathMismatch, s, [.get key]⟩
      else
        ⟨.ok storedPath, storeDel s key, [.get key, .del key]⟩

/-- OnceTokenValidator.GenerateToken (once_token.go lines 172-195), given
the random token drawn by generateRandomToken (a 32-character hex string,
hence never empty): store prefix+token -> path.  The TTL argument only sets
the Redis expiry and is not part of the untimed model. -/
def GenerateOnceToken (keyPre : String) (s : Store) (token path : String) :
    Store :=
  storeSet s (keyPre ++ token) path

/-- C2: a freshly generated token is consumed exactly once: the first
ValidateAndConsumeToken with the bound path succeeds, returns the bound path
and deletes the entry; the immediate repeat fails with the expired
(not-found) error; a call whose non-empty current path differs from the
non-empty bound path fails with pathMismatch leaving the store unchanged, so
the token can still be consumed with the correct path afterwards. -/
theorem once_token_single_use (keyPre : String) (s : Store)
    (token path cur : String) (htok : token ≠ "") (hpath : path ≠ "")
    (hcur : cur ≠ "") (hne : cur ≠ path) :
    (ValidateAndConsumeToken keyPre (GenerateOnceToken keyPre s token path)
        token path).result = .ok path ∧
    storeGet (ValidateAndConsumeToken keyPre
        (GenerateOnceToken keyPre s token path) token path).store
        (keyPre ++ token) = none ∧
    (ValidateAndConsumeToken keyPre (ValidateAndConsumeToken keyPre
        (GenerateOnceToken keyPre s token path) token path).store
        token path).result = .error .expired ∧
    (ValidateAndConsumeToken keyPre (GenerateOnceToken keyPre s token path)
        token cur).result = .error .pathMismatch ∧
    (ValidateAndConsumeToken keyPre (GenerateOnceToken keyPre s token path)
        token cur).store = GenerateOnceToken keyPre s token path ∧
    (ValidateAndConsumeToken keyPre (ValidateAndConsumeToken keyPre
        (GenerateOnceToken keyPre s token path) token cur).store
        token path).result = .ok path := by
  have hget : storeGet (GenerateOnceToken keyPre s token path)
      (keyPre ++ token) = some path :=
    storeGet_set_self s (keyPre ++ token) path
  have hfirst : ValidateAndConsumeToken keyPre
      (GenerateOnceToken keyPre s token path) token path =
      ⟨.ok path, storeDel (GenerateOnceToken keyPre s token path)
        (keyPre ++ token), [.get (keyPre ++ token), .del (keyPre ++ token)]⟩ := by
    rw [ValidateAndConsumeToken, if_neg htok]
    simp only [hget]
    rw [if_neg]
    rintro ⟨-, -, hpp⟩
    exact hpp rfl
  have hmis : ValidateAndConsumeToken keyPre
      (GenerateOnceToken keyPre s token path) token cur =
      ⟨.error .pathMismatch, GenerateOnceToken keyPre s token path,
        [.get (keyPre ++ token)]⟩ := by
    rw [ValidateAndConsumeToken, if_neg htok]
    simp only [hget]
    rw [if_pos]
    exact ⟨hpath, hcur, fun hcp => hne hcp.symm⟩
  refine ⟨?_, ?_, ?_, ?_, ?_, ?_⟩
  · rw [hfirst]
  · rw [hfirst]
    exact storeGet_del_self _ _
  · rw [hfirst]
    rw [ValidateAndConsumeToken, if_neg htok]
    simp only [storeGet_del_self]
  · rw [hmis]
  · rw [hmis]
  · rw [hmis]
    rw [hfirst]

/-- C2 witness: the lifecycle at a concrete store, token and paths. -/
theorem once_token_single_use_witness :
    (ValidateAndConsumeToken "once_token:"
        (GenerateOnceToken "once_token:" [] "t" "/a") "t" "/a").result =
      .ok "/a" ∧
    storeGet (ValidateAndConsumeToken "once_token:"
        (GenerateOnceToken "once_token:" [] "t" "/a") "t" "/a").store
        ("once_token:" ++ "t") = none ∧
    (ValidateAndConsumeToken "once_token:" (ValidateAndConsumeToken
        "once_token:" (GenerateOnceToken "once_token:" [] "t" "/a") "t"
        "/a").store "t" "/a").result = .error .expired ∧
    (ValidateAndConsumeToken "once_token:"
        (GenerateOnceToken "once_token:" [] "t" "/a") "t" "/b").result =
      .error .pathMismatch ∧
    (ValidateAndConsumeToken "once_token:"
        (GenerateOnceToken "once_token:" [] "t" "/a") "t" "/b").store =
      GenerateOnceToken "once_token:" [] "t" "/a" ∧
    (ValidateAndConsumeToken "once_token:" (ValidateAndConsumeToken
        "once_token:" (GenerateOnceToken "once_token:" [] "t" "/a") "t"
        "/b").store "t" "/a").result = .ok "/a" :=
  once_token_single_use "once_token:" [] "t" "/a" "/b" (by decide)
    (by decide) (by decide) (by decide)

/-- C10: an empty token is rejected with the invalid-token error before any
shared-store interaction: no store operation is recorded and the store is
returned unchanged. -/
theorem once_token_empty_invalid (keyPre : String) (s : Store)
    (cur : String) :
    ValidateAndConsumeToken keyPre s "" cur = ⟨.error .invalid, s, []⟩ := by
  rw [ValidateAndConsumeToken, if_pos rfl]

/-! ## Concurrent consumption (claim C8)

ValidateAndConsumeToken performs two separate Redis commands: GET and then
an unconditional DEL.  Under concurrency each command is atomic but the pair
is not, so the call is split at the command boundaries into a small-step
program: from `start`, the GET observes the store; from `gotten`, the local
checks run and, on the success path, the DEL executes. -/

deriving instance DecidableEq for Except

inductive CallerState
  | start
  | gotten (v : Option String)
  | finished (r : Except OTErr String)
  deriving DecidableEq

/-- One atomic step of a ValidateAndConsumeToken call (token `token`, current
path `cur`), split at the Redis command boundaries.  A finished caller does
not move. -/
def callerStep (keyPre token cur : String) :
    CallerState → Store → CallerState × Store
  | .start, s =>
    if token = "" then (.finished (.error .invalid), s)
    else (.gotten (storeGet s (keyPre ++ token)), s)
  | .gotten none, s => (.finished (.error .expired), s)
  | .gotten (some storedPath), s =>
    if storedPath ≠ "" ∧ cur ≠ "" ∧ storedPath ≠ cur then
      (.finished (.error .pathMismatch), s)
    else
      (.finished (.ok storedPath), storeDel s (keyPre ++ token))
  | .finished r, s => (.finished r, s)

/-- Sanity check: a caller that runs its two steps without interference
computes exactly ValidateAndConsumeToken. -/
theorem callerStep_sequential (keyPre token cur : String) (s : Store)
    (htok : token ≠ "") :
    (fun p => callerStep keyPre token cur p.1 p.2)
        (callerStep keyPre token cur .start s) =
      (.finished (ValidateAndConsumeToken keyPre s token cur).result,
        (ValidateAndConsumeToken keyPre s token cur).store) := by
  rw [ValidateAndConsumeToken, if_neg htok]
  simp only [callerStep, if_neg htok]
  cases hg : storeGet s (keyPre ++ token) with
  | none => simp [callerStep]
  | some storedPath =>
    by_cases hmis : storedPath ≠ "" ∧ cur ≠ "" ∧ storedPath ≠ cur
    · simp [callerStep, hmis]
    · simp [callerStep, hmis]

/-- Interleave two callers over the shared store: `true` steps the first
caller, `false` the second. -/
def runSched (keyPre token cur : String) :
    List Bool → CallerState × CallerState × Store →
      CallerState × CallerState × Store
  | [], st => st
  | b :: rest, (c1, c2, s) =>
    if b then
      let r := callerStep keyPre token cur c1 s
      runSched keyPre token cur rest (r.1, c2, r.2)
    else
      let r := callerStep keyPre token cur c2 s
      runSched keyPre token cur rest (c1, r.1, r.2)

/-- C8 (refuted on the code): both of two concurrent
ValidateAndConsumeToken calls for the same freshly issued token (bound to
"/p", presented with the correct path) can succeed, under the interleaving
GET, GET, DEL, DEL — the claimed exactly-one-success invariant does not hold
for the non-atomic read-then-delete sequence. -/
theorem once_token_double_consume_race :
    runSched "once_token:" "t" "/p" [true, false, true, false]
        (.start, .start, GenerateOnceToken "once_token:" [] "t" "/p") =
      (.finished (.ok "/p"), .finished (.ok "/p"), []) := by
  decide

/-! ## Requests and credential extraction (claim C4)

A request exposes header, query and cookie accessors.  Header keys are taken
as already canonicalized.  Go's c.GetHeader / c.Query return "" when the key
is absent; c.Cookie returns an error. -/

structure Request where
  headers : List (String × String)
  query : List (String × String)
  cookies : List (String × String)
  deriving DecidableEq

def getHeader (req : Request) (k : String) : String :=
  ((req.headers.find? (fun p => p.1 == k)).map (fun p => p.2)).getD ""

def getQuery (req : Request) (k : String) : String :=
  ((req.query.find? (fun p => p.1 == k)).map (fun p => p.2)).getD ""

def getCookie (req : Request) (k : String) : Except Unit String :=
  match req.cookies.find? (fun p => p.1 == k) with
  | some p => .ok p.2
  | none => .error ()

/-- Go strings.TrimPrefix, for ASCII data: when pre leads s, drop it.
Implemented on the character list (Lean's String.isPrefixOf and String.drop
do not evaluate inside the kernel). -/
def stripPre (pre s : String) : String :=
  if pre.data.isPrefixOf s.data then ⟨s.data.drop pre.data.length⟩ else s

/-- Go strings.TrimSpace (ASCII whitespace): drop leading and trailing
whitespace characters. -/
def trimStr (s : String) : String :=
  ⟨((s.data.dropWhile Char.isWhitespace).reverse.dropWhile
      Char.isWhitespace).reverse⟩

/-- Go strings.Split for a single-character separator (the lookup parsers
split on ',' and ':').  Split("", sep) = [""], like Go. -/
def splitChar (sep : Char) : List Char → List (List Char)
  | [] => [[]]
  | c :: rest =>
    let r := splitChar sep rest
    if c = sep then [] :: r
    else
      match r with
      | [] => [[c]]
      | g :: gs => (c :: g) :: gs

inductive JwtErr
  | invalidTokenLookup
  | notFoundQueryToken
  | notFoundHeaderToken
  | invalidToken
  | expired
  deriving DecidableEq

/-- tokenFromQuery (jwt.go lines 246-252). -/
def tokenFromQuery (req : Request) (key : String) : Except JwtErr String :=
  let token := getQuery req key
  if token = "" then .error .notFoundQueryToken else .ok token

/-- tokenFromHeader (jwt.go lines 255-265): empty header is an error;
otherwise strip a "Bearer " then a "bearer " lead and trim whitespace. -/
def tokenFromHeader (req : Request) (key : String) : Except JwtErr String :=
  let token := getHeader req key
  if token = "" then .error .notFoundHeaderToken
  else .ok (trimStr (stripPre "bearer " (stripPre "Bearer " token)))

/-- tokenFromCookie (jwt.go lines 268-274). -/
def tokenFromCookie (req : Request) (key : String) : Except JwtErr String :=
  match getCookie req key with
  | .error _ => .error .notFoundHeaderToken
  | .ok token =>
    if token = "" then .error .notFoundHeaderToken else .ok token

/-- The switch body of JwtValidator.extractToken (jwt.go lines 144-153):
what one (source, key) pair of the lookup list yields. -/
def jwtSource (req : Request) (src key : String) : Except JwtErr String :=
  match src with
  | "query" => tokenFromQuery req key
  | "header" => tokenFromHeader req key
  | "cookie" => tokenFromCookie req key
  | _ => tokenFromHeader req key

/-- JwtValidator.extractToken (jwt.go lines 137-160): walk the parsed lookup
list in declared order; a source counts as a hit when it returns no error
and a non-empty token; otherwise fall through; exhausted lookups fail with
the not-found-in-header error. -/
def jwtExtractToken (lm : List (String × String)) (req : Request) :
    Except JwtErr String :=
  match lm with
  | [] => .error .notFoundHeaderToken
  | (src, key) :: rest =>
    match jwtSource req src key with
    | .ok t => if t = "" then jwtExtractToken rest req else .ok t
    | .error _ => jwtExtractToken rest req

/-- The switch body of OnceTokenValidator.extractToken (once_token.go lines
152-162): raw values, no Bearer stripping and no trimming; only the cookie
source can error. -/
def otSource (req : Request) (src key : String) : Except Unit String :=
  match src with
  | "query" => .ok (getQuery req key)
  | "header" => .ok (getHeader req key)
  | "cookie" => getCookie req key
  | _ => .ok (getHeader req key)

/-- OnceTokenValidator.extractToken (once_token.go lines 146-169): same walk
over the declared order as the jwt extractor, but over raw source values;
exhausted lookups fail with the once-token not-found error. -/
def otExtractToken (lm : List (String × String)) (req : Request) :
    Except OTErr String :=
  match lm with
  | [] => .error .notFound
  | (src, key) :: rest =>
    match otSource req src key with
    | .ok t => if t = "" then otExtractToken rest req else .ok t
    | .error _ => otExtractToken rest req

/-- ApiKeyValidator (api_key.go): the parsed lookup collapses into at most
one key per source. -/
structure ApiKeyValidator where
  headerKey : String
  queryKey : String
  cookieKey : String
  deriving DecidableEq

/-- NewApiKeyValidator (api_key.go lines 23-54): parse the comma-separated
lookup items into the three per-source keys; malformed items are skipped;
a later item for the same source overwrites an earlier one.  Note the
declared order of the items is lost. -/
def NewApiKeyValidator (headerKey lookup : String) : ApiKeyValidator :=
  let init : ApiKeyValidator := ⟨headerKey, "", ""⟩
  if lookup = "" then init
  else
    ((splitChar ',' lookup.data).map (fun cs => String.mk cs)).foldl
      (fun v item =>
        match (splitChar ':' (trimStr item).data).map
            (fun cs => String.mk cs) with
        | [a, b] =>
          match trimStr a with
          | "header" => { v with headerKey := trimStr b }
          | "query" => { v with queryKey := trimStr b }
          | "cookie" => { v with cookieKey := trimStr b }
          | _ => v
        | _ => v) init

/-- ApiKeyValidator.GetApiKey (api_key.go lines 70-87): always header first,
then query, then cookie, whatever order the lookup string declared; no
Bearer stripping, no trimming. -/
def GetApiKey (akv : ApiKeyValidator) (req : Request) : String :=
  let headerApiKey := getHeader req akv.headerKey
  if headerApiKey ≠ "" then headerApiKey
  else
    let queryApiKey := getQuery req akv.queryKey
    if queryApiKey ≠ "" then queryApiKey
    else
      match getCookie req akv.cookieKey with
      | .ok cookieApiKey => if cookieApiKey ≠ "" then cookieApiKey else ""
      | .error _ => ""

/-- Spec-side first-hit scan: the first (source, key) pair whose fetch
yields a value, in declared order. -/
def firstHit (fetch : String → String → Option String) :
    List (String × String) → Option String
  | [] => none
  | (src, key) :: rest =>
    match fetch src key with
    | some t => some t
    | none => firstHit fetch rest

/-- What one (source, key) pair yields for the jwt extractor: per-source
fetch, Bearer stripping and trimming on header values, empty results
discarded. -/
def jwtFetch (req : Request) (src key : String) : Option String :=
  match jwtSource req src key with
  | .ok t => if t = "" then none else some t
  | .error _ => none

/-- What one (source, key) pair yields for the once-token extractor: the
raw value, untouched. -/
def otFetch (req : Request) (src key : String) : Option String :=
  match otSource req src key with
  | .ok t => if t = "" then none else some t
  | .error _ => none

/-- C4 counterexample: the three extractors do not behave identically.  With
the single lookup header:X-Token and a header value "Bearer abc", the jwt
extractor strips the Bearer lead ("abc") while the once-token extractor
returns the raw value ("Bearer abc"); and with the declared order
query:k,header:H plus both sources populated, the api-key extractor returns
the header value although the query source was declared first. -/
theorem extractors_not_identical_C4 :
    jwtExtractToken [("header", "X-Token")]
        ⟨[("X-Token", "Bearer abc")], [], []⟩ = .ok "abc" ∧
    otExtractToken [("header", "X-Token")]
        ⟨[("X-Token", "Bearer abc")], [], []⟩ = .ok "Bearer abc" ∧
    GetApiKey (NewApiKeyValidator "X-Api-Key" "query:k,header:H")
        ⟨[("H", "hv")], [("k", "qv")], []⟩ = "hv" := by
  decide

/-- C4 (amended): the jwt and once-token extractors both return the first
non-empty value over the declared (source, key) order and fail with their
respective not-found errors when every source comes up empty — but they
differ in what a source yields (the jwt extractor strips a Bearer/bearer
lead from header values and trims, the once-token extractor takes values
raw); the api-key extractor ignores the declared order entirely and always
probes header, then query, then cookie, without stripping. -/
theorem extractor_order_spec (lm : List (String × String)) (req : Request) :
    jwtExtractToken lm req =
      (firstHit (jwtFetch req) lm).elim (.error .notFoundHeaderToken) .ok ∧
    otExtractToken lm req =
      (firstHit (otFetch req) lm).elim (.error .notFound) .ok ∧
    (∀ akv : ApiKeyValidator, GetApiKey akv req =
      (if getHeader req akv.headerKey ≠ "" then getHeader req akv.headerKey
       else if getQuery req akv.queryKey ≠ "" then getQuery req akv.queryKey
       else match getCookie req akv.cookieKey with
         | .ok c => if c ≠ "" then c else ""
         | .error _ => "")) := by
  refine ⟨?_, ?_, fun akv => rfl⟩
  · induction lm with
    | nil => rfl
    | cons p rest ih =>
      obtain ⟨src, key⟩ := p
      rw [jwtExtractToken, firstHit, jwtFetch]
      cases hr : jwtSource req src key with
      | ok t =>
        by_cases ht : t = ""
        · simp [ht, ih]
        · simp [ht]
      | error e => simp [ih]
  · induction lm with
    | nil => rfl
    | cons p rest ih =>
      obtain ⟨src, key⟩ := p
      rw [otExtractToken, firstHit, otFetch]
      cases hr : otSource req src key with
      | ok t =>
        by_cases ht : t = ""
        · simp [ht, ih]
        · simp [ht]
      | error e => simp [ih]

/-! ## Signed-token validator (middlewares/security/jwt.go)

Timestamps are rationals measured in seconds (Go time instants have
sub-second precision; timeToExpire is a float64 of seconds).  The
HMAC-signed encoding is modelled structurally: a signed token carries its
claims, the signing algorithm name and the signing key, and signature
verification succeeds exactly when the parser's configured algorithm and
key both coincide with the token's — faithful to HMAC verification, which
recomputes the tag from the payload with the configured key. -/

structure JwtConfig where
  privateKey : String
  expireTime : Int
  tokenLookupMap : List (String × String)
  autoRefresh : Bool
  refreshThreshold : Int
  refreshHeader : String
  signingMethod : String
  deriving DecidableEq

/-- Claims (jwt.go lines 51-56): user id, username, custom data and the
registered timestamp claims.  The custom data map is modelled as a
string-to-string association list (JSON-representable data on which the
encode/decode round trip is the identity). -/
structure Claims where
  userID : String
  username : String
  data : List (String × String)
  expiresAt : Option ℚ
  issuedAt : Option ℚ
  notBefore : Option ℚ
  deriving DecidableEq

structure SignedToken where
  claims : Claims
  alg : String
  key : String
  deriving DecidableEq

/-- JwtValidator.ParseToken (jwt.go lines 163-184) at time `now`:
the keyfunc rejects a signing-method mismatch and releases the configured
private key; signature verification fails for a key mismatch (both are
ErrJwtInvalidToken); then claims validation: a passed expiry is
ErrJwtExpired (matched first, as errors.Is(err, jwt.ErrTokenExpired) is
tested first in the Go code), a not-yet-valid notBefore is
ErrJwtInvalidToken; absent timestamp claims are not validated. -/
def ParseToken (cfg : JwtConfig) (now : ℚ) (tok : SignedToken) :
    Except JwtErr Claims :=
  if tok.alg ≠ cfg.signingMethod then .error .invalidToken
  else if tok.key ≠ cfg.privateKey then .error .invalidToken
  else
    let expOk : Bool := match tok.claims.expiresAt with
      | some e => decide (now < e)
      | none => true
    let nbfOk : Bool := match tok.claims.notBefore with
      | some nb => decide (nb ≤ now)
      | none => true
    if expOk = false then .error .expired
    else if nbfOk = false then .error .invalidToken
    else .ok tok.claims

/-- JwtValidator.GenerateToken (jwt.go lines 187-202) at time `now`:
issuedAt = notBefore = now, expiresAt = now + expireTime seconds, signed
with the configured method and private key. -/
def GenerateToken (cfg : JwtConfig) (now : ℚ) (userID username : String)
    (data : List (String × String)) : SignedToken :=
  { claims :=
      { userID := userID, username := username, data := data,
        expiresAt := some (now + (cfg.expireTime : ℚ)),
        issuedAt := some now, notBefore := some now },
    alg := cfg.signingMethod, key := cfg.privateKey }

/-- C3: parsing a token just generated under the same configuration
succeeds and returns claims carrying the same subject id, username and
custom data, with expiresAt - issuedAt equal to the configured expireTime —
exact equality, hence within the 1-second clock-skew tolerance. -/
theorem jwt_generate_parse_roundtrip (cfg : JwtConfig) (now : ℚ)
    (id user : String) (data : List (String × String))
    (hexp : 0 < cfg.expireTime) :
    ∃ c : Claims,
      ParseToken cfg now (GenerateToken cfg now id user data) = .ok c ∧
      c.userID = id ∧ c.username = user ∧ c.data = data ∧
      ∃ iat e2 : ℚ, c.issuedAt = some iat ∧ c.expiresAt = some e2 ∧
        e2 - iat = (cfg.expireTime : ℚ) ∧
        |(e2 - iat) - (cfg.expireTime : ℚ)| ≤ 1 := by
  have hlt : now < now + (cfg.expireTime : ℚ) := by
    have : (0 : ℚ) < (cfg.expireTime : ℚ) := by
      exact_mod_cast hexp
    linarith
  refine ⟨(GenerateToken cfg now id user data).claims, ?_, rfl, rfl, rfl,
    now, now + (cfg.expireTime : ℚ), rfl, rfl, by ring, by simp⟩
  rw [ParseToken]
  rw [if_neg (by simp [GenerateToken]), if_neg (by simp [GenerateToken])]
  simp only [GenerateToken, decide_eq_true_eq]
  rw [if_neg (by simp [hlt]), if_neg (by simp)]

/-- C3 witness: the round trip at a concrete configuration and time. -/
theorem jwt_generate_parse_roundtrip_witness :
    ∃ c : Claims,
      ParseToken ⟨"k", 3600, [("header", "Authorization")], false, 1800,
          "X-New-Token", "HS256"⟩ 0
        (GenerateToken ⟨"k", 3600, [("header", "Authorization")], false,
          1800, "X-New-Token", "HS256"⟩ 0 "u1" "alice" [("role", "admin")]) =
        .ok c ∧
      c.userID = "u1" ∧ c.username = "alice" ∧
      c.data = [("role", "admin")] ∧
      ∃ iat e2 : ℚ, c.issuedAt = some iat ∧ c.expiresAt = some e2 ∧
        e2 - iat = ((3600 : Int) : ℚ) ∧
        |(e2 - iat) - ((3600 : Int) : ℚ)| ≤ 1 :=
  jwt_generate_parse_roundtrip
    ⟨"k", 3600, [("header", "Authorization")], false, 1800, "X-New-Token",
      "HS256"⟩ 0 "u1" "alice" [("role", "admin")] (by decide)

/-- Request-scoped context values set by the validators. -/
inductive CtxVal
  | flag (b : Bool)
  | str (s : String)
  | claims (c : Claims)
  deriving DecidableEq

def JwtContextKey : String := "jwt_claims"

def JwtTokenContextKey : String := "jwt_token"

/-- JwtValidator.checkAndRefresh (jwt.go lines 223-243) at time `now`:
nothing happens without an expiry claim; when 0 < expiresAt - now <
refreshThreshold a refresh token is minted and written to the configured
response header, and a minting failure is logged and swallowed.  The
minting step is abstracted as `mint` (in the source it is RefreshToken,
whose SignedString call can fail); the returned list is the response
headers written. -/
def checkAndRefresh (cfg : JwtConfig)
    (mint : Claims → Except Unit SignedToken) (now : ℚ) (c : Claims) :
    List (String × SignedToken) :=
  match c.expiresAt with
  | none => []
  | some e =>
    if 0 < e - now ∧ e - now < (cfg.refreshThreshold : ℚ) then
      match mint c with
      | .error _ => []
      | .ok tok => [(cfg.refreshHeader, tok)]
    else []

/-- The observable outcome of JwtValidator.Valid: the returned error (none
on success), the request-scoped keys set, and the response headers
written. -/
structure ValidOut where
  result : Option JwtErr
  ctxSets : List (String × CtxVal)
  headerWrites : List (String × SignedToken)
  deriving DecidableEq

/-- JwtValidator.Valid (jwt.go lines 112-134) at time `now`: extract the
credential (failure propagates), parse it (failure propagates), on success
store claims and raw token in the request context and, when auto-refresh is
enabled, run checkAndRefresh.  Parsing of the extracted string is
abstracted as `parse` (in the source it is ParseToken on the encoded
string; Valid uses it only through its result). -/
def JwtValid (cfg : JwtConfig) (parse : String → Except JwtErr Claims)
    (mint : Claims → Except Unit SignedToken) (now : ℚ) (req : Request) :
    ValidOut :=
  match jwtExtractToken cfg.tokenLookupMap req with
  | .error e => ⟨some e, [], []⟩
  | .ok tokenString =>
    match parse tokenString with
    | .error e => ⟨some e, [], []⟩
    | .ok c =>
      ⟨none,
        [(JwtContextKey, .claims c), (JwtTokenContextKey, .str tokenString)],
        if cfg.autoRefresh then checkAndRefresh cfg mint now c else []⟩

/-- C5: with auto-refresh enabled, once a request's token validates, Valid
succeeds whatever the minting outcome; at most one response header is
written; a header is written exactly when the remaining lifetime satisfies
0 < expiresAt - now < refreshThreshold and minting succeeds, in which case
the configured refresh header carries the minted token. -/
theorem jwt_auto_refresh_header (cfg : JwtConfig)
    (parse : String → Except JwtErr Claims)
    (mint : Claims → Except Unit SignedToken) (now : ℚ) (req : Request)
    (tok : String) (c : Claims)
    (har : cfg.autoRefresh = true)
    (hex : jwtExtractToken cfg.tokenLookupMap req = .ok tok)
    (hp : parse tok = .ok c) :
    (JwtValid cfg parse mint now req).result = none ∧
    (JwtValid cfg parse mint now req).headerWrites.length ≤ 1 ∧
    ((JwtValid cfg parse mint now req).headerWrites ≠ [] ↔
      (∃ e2 : ℚ, c.expiresAt = some e2 ∧ 0 < e2 - now ∧
        e2 - now < (cfg.refreshThreshold : ℚ)) ∧
      ∃ nt : SignedToken, mint c = .ok nt) ∧
    (∀ (e2 : ℚ) (nt : SignedToken), c.expiresAt = some e2 →
      0 < e2 - now → e2 - now < (cfg.refreshThreshold : ℚ) →
      mint c = .ok nt →
      (JwtValid cfg parse mint now req).headerWrites =
        [(cfg.refreshHeader, nt)]) := by
  have hv : JwtValid cfg parse mint now req =
      ⟨none, [(JwtContextKey, .claims c), (JwtTokenContextKey, .str tok)],
        checkAndRefresh cfg mint now c⟩ := by
    rw [JwtValid]
    simp only [hex, hp, har, if_true]
  rw [hv]
  refine ⟨rfl, ?_, ?_, ?_⟩
  · cases he : c.expiresAt with
    | none => simp [checkAndRefresh, he]
    | some e2 =>
      simp only [checkAndRefresh, he]
      by_cases hw : 0 < e2 - now ∧ e2 - now < (cfg.refreshThreshold : ℚ)
      · rw [if_pos hw]
        cases hm : mint c with
        | error u => simp
        | ok nt => simp
      · rw [if_neg hw]
        simp
  · cases he : c.expiresAt with
    | none =>
      simp only [checkAndRefresh, he]
      constructor
      · intro hne
        exact absurd rfl hne
      · rintro ⟨⟨e3, he3, -, -⟩, -⟩
        cases he3
    | some e2 =>
      simp only [checkAndRefresh, he]
      by_cases hw : 0 < e2 - now ∧ e2 - now < (cfg.refreshThreshold : ℚ)
      · rw [if_pos hw]
        cases hm : mint c with
        | error u =>
          constructor
          · intro hne
            exact absurd rfl hne
          · rintro ⟨-, nt, hnt⟩
            cases hnt
        | ok nt =>
          constructor
          · intro _
            exact ⟨⟨e2, rfl, hw.1, hw.2⟩, nt, rfl⟩
          · intro _
            simp
      · rw [if_neg hw]
        constructor
        · intro hne
          exact absurd rfl hne
        · rintro ⟨⟨e3, he3, h1, h2⟩, -⟩
          cases he3
          exact absurd ⟨h1, h2⟩ hw
  · intro e2 nt he h1 h2 hm
    have hw2 : 0 < e2 - now ∧ e2 - now < (cfg.refreshThreshold : ℚ) :=
      ⟨h1, h2⟩
    simp only [checkAndRefresh, he, hm]
    rw [if_pos hw2]

def cfgC5 : JwtConfig :=
  ⟨"k", 3600, [("header", "Authorization")], true, 1800, "X-New-Token",
    "HS256"⟩

def claimsC5 : Claims := ⟨"u1", "alice", [], some 100, some 0, some 0⟩

def tokC5 : SignedToken := ⟨claimsC5, "HS256", "k"⟩

def parseC5 : String → Except JwtErr Claims := fun _ => .ok claimsC5

def mintC5 : Claims → Except Unit SignedToken := fun _ => .ok tokC5

def reqC5 : Request := ⟨[("Authorization", "t")], [], []⟩

/-- C5 witness: a request bearing a validating token, 100 seconds from
expiry against a 1800-second threshold. -/
theorem jwt_auto_refresh_header_witness :
    (JwtValid cfgC5 parseC5 mintC5 0 reqC5).result = none ∧
    (JwtValid cfgC5 parseC5 mintC5 0 reqC5).headerWrites.length ≤ 1 ∧
    ((JwtValid cfgC5 parseC5 mintC5 0 reqC5).headerWrites ≠ [] ↔
      (∃ e2 : ℚ, claimsC5.expiresAt = some e2 ∧ 0 < e2 - 0 ∧
        e2 - 0 < (cfgC5.refreshThreshold : ℚ)) ∧
      ∃ nt : SignedToken, mintC5 claimsC5 = .ok nt) ∧
    (∀ (e2 : ℚ) (nt : SignedToken), claimsC5.expiresAt = some e2 →
      0 < e2 - 0 → e2 - 0 < (cfgC5.refreshThreshold : ℚ) →
      mintC5 claimsC5 = .ok nt →
      (JwtValid cfgC5 parseC5 mintC5 0 reqC5).headerWrites =
        [(cfgC5.refreshHeader, nt)]) :=
  jwt_auto_refresh_header cfgC5 parseC5 mintC5 0 reqC5 "t" claimsC5 rfl
    (by decide) rfl

/-- C9: whenever JwtValidator.Valid returns an error, the request-scoped
store is untouched — neither the jwt_claims nor the jwt_token key is set —
and no refresh header is written. -/
theorem jwt_valid_error_frame (cfg : JwtConfig)
    (parse : String → Except JwtErr Claims)
    (mint : Claims → Except Unit SignedToken) (now : ℚ) (req : Request)
    (e : JwtErr) (h : (JwtValid cfg parse mint now req).result = some e) :
    (JwtValid cfg parse mint now req).ctxSets = [] ∧
    (JwtValid cfg parse mint now req).headerWrites = [] := by
  cases hex : jwtExtractToken cfg.tokenLookupMap req with
  | error e2 => simp [JwtValid, hex]
  | ok tokenString =>
    cases hp : parse tokenString with
    | error e2 => simp [JwtValid, hex, hp]
    | ok c =>
      rw [JwtValid] at h
      simp only [hex, hp] at h
      cases h

/-- C9 witness: a request with no credential at all makes Valid fail with
the not-found error and leaves context and headers untouched. -/
theorem jwt_valid_error_frame_witness :
    (JwtValid cfgC5 parseC5 mintC5 0 ⟨[], [], []⟩).ctxSets = [] ∧
    (JwtValid cfgC5 parseC5 mintC5 0 ⟨[], [], []⟩).headerWrites = [] :=
  jwt_valid_error_frame cfgC5 parseC5 mintC5 0 ⟨[], [], []⟩
    .notFoundHeaderToken (by decide)

/-! ## Security orchestrator (middlewares/security/security.go) and the
standalone once-token middleware (once_token.go lines 312-342)

The package-level state of security.go is the validator map and the matcher
pointer; PermitRoute mutates the matcher, Security() replaces it with a
fresh RequestMatcher.  Validators are modelled as named predicates on the
request; Go iterates the validator map in unspecified order, and the list
order below stands for one arbitrary iteration order (the claims below
concern only the bypass case and the all-validators-fail case, where the
order is irrelevant). -/

def PermittedFlag : String := "security_permitted"

/-- The security.go constant named Type ("security"); Type is a Lean
keyword, hence the different name. -/
def SecurityTypeKey : String := "security"

/-- The base-path prefixing of RequestMatcher.AddRoute (request.go lines
22-25). -/
def prefixRoute (basePath route : String) : String :=
  if basePath ≠ "" ∧ ¬ (basePath.data.isPrefixOf route.data) then
    basePath ++ route
  else route

/-- RequestMatcher.AddRoute (request.go lines 21-36) with the
http_method-normalized method list: register the composite key of the
(possibly base-path prefixed) route for every method. -/
def rmAddRoute (basePath : String) (wl : List Route) (route : String)
    (methods : List String) : List Route :=
  methods.foldl
    (fun w m => genMatchKey (prefixRoute basePath route) m :: w) wl

/-- The package-level matcher pointer of security.go: nil until Security()
runs. -/
structure SecPkgState where
  matcher : Option (List Route)
  deriving DecidableEq

/-- The matcher initialization done by Security() (security.go line 46):
the matcher is replaced by a fresh empty RequestMatcher. -/
def securitySetup (_st : SecPkgState) : SecPkgState := ⟨some []⟩

/-- PermitRoute (security.go lines 91-99): with a nil matcher the call only
logs and returns — the route is dropped; otherwise the route is added. -/
def permitRoute (basePath : String) (st : SecPkgState) (route : String)
    (methods : List String) : SecPkgState :=
  match st.matcher with
  | none => st
  | some wl => ⟨some (rmAddRoute basePath wl route methods)⟩

/-- What a gin handler does to the request: proceed (c.Next) after setting
context keys, or abort with a status and an optional JSON body. -/
inductive HandlerOutcome
  | proceed (ctxSets : List (String × CtxVal))
  | abort (status : Nat) (body : Option String)
  deriving DecidableEq

/-- The per-request handler returned by Security() (security.go lines
61-84): a whitelist match sets the permitted flag and proceeds, skipping
every validator; otherwise the first validator accepting the request has
its name recorded; if none accepts, the request is aborted with a bare 401
status and no body (AbortWithStatus). -/
def securityHandler (wl : List Route)
    (validators : List (String × (Request → Bool))) (req : Request)
    (fullPath method : String) : HandlerOutcome :=
  if rmMatch wl fullPath method then
    .proceed [(PermittedFlag, .flag true)]
  else
    match validators.find? (fun kv => kv.2 req) with
    | some kv => .proceed [(SecurityTypeKey, .str kv.1)]
    | none => .abort 401 none

/-- The Error() strings of the once-token error values (once_token.go lines
18-24). -/
def otErrMsg : OTErr → String
  | .invalid => "once token invalid"
  | .expired => "once token expired"
  | .pathMismatch => "once token path mismatch"
  | .notFound => "once token not found"

def OnceTokenContextKey : String := "once_token"

/-- OnceTokenValidator.Valid (once_token.go lines 126-143): extract, then
validate-and-consume against the request's full path; on success store the
token and bound path in the request context. -/
def onceTokenValid (keyPre : String) (lm : List (String × String))
    (st : Store) (req : Request) (fullPath : String) :
    Option OTErr × Store × List (String × CtxVal) :=
  match otExtractToken lm req with
  | .error e => (some e, st, [])
  | .ok tokenString =>
    let r := ValidateAndConsumeToken keyPre st tokenString fullPath
    match r.result with
    | .error e => (some e, r.store, [])
    | .ok path =>
      (none, r.store,
        [(OnceTokenContextKey, .str tokenString),
          ("once_token_path", .str path)])

/-- The handler returned by OnceTokenMiddleware (once_token.go lines
329-339): on a validation error it aborts with status 401 and a JSON body
whose error field spells out the failure ("once token validation failed:
%v" of the error); on success it proceeds. -/
def onceTokenHandler (keyPre : String) (lm : List (String × String))
    (st : Store) (req : Request) (fullPath : String) :
    HandlerOutcome × Store :=
  let r := onceTokenValid keyPre lm st req fullPath
  match r.1 with
  | some e =>
    (.abort 401 (some ("once token validation failed: " ++ otErrMsg e)),
      r.2.1)
  | none => (.proceed r.2.2, r.2.1)

theorem mem_foldl_cons {α β : Type} (f : β → α) :
    ∀ (ms : List β) (w : List α),
      (∀ x ∈ w, x ∈ ms.foldl (fun acc m => f m :: acc) w) ∧
      (∀ m ∈ ms, f m ∈ ms.foldl (fun acc m => f m :: acc) w) := by
  intro ms
  induction ms with
  | nil =>
    intro w
    constructor
    · intro x hx
      exact hx
    · intro m hm
      cases hm
  | cons a as ih =>
    intro w
    constructor
    · intro x hx
      exact (ih (f a :: w)).1 x (List.mem_cons_of_mem _ hx)
    · intro m hm
      cases hm with
      | head =>
        exact (ih (f a :: w)).1 (f a) (List.mem_cons_self _ _)
      | tail _ hmem =>
        exact (ih (f a :: w)).2 m hmem

/-- C6 counterexample: a PermitRoute call made before Security() has run
(matcher still nil) is silently dropped, so the later request to the
permitted route is not bypassed — it is rejected with 401 when no validator
accepts it. -/
theorem permitRoute_before_setup_dropped_C6 :
    permitRoute "" ⟨none⟩ "/health" ["GET"] = ⟨none⟩ ∧
    securityHandler
        ((securitySetup
          (permitRoute "" ⟨none⟩ "/health" ["GET"])).matcher.getD [])
        [] ⟨[], [], []⟩ "/health" "GET" = .abort 401 none := by
  decide

/-- C6 (amended): a PermitRoute call made once Security() has created the
matcher registers its (path, method) entries, and a later request to the
(base-path prefixed) route with one of those methods is bypassed: the
permitted flag is set and no validator is consulted; PermitRoute calls made
before Security() are silently dropped. -/
theorem permitRoute_after_setup_bypasses (basePath : String)
    (st : SecPkgState) (route : String) (methods : List String) (m : String)
    (hm : m ∈ methods) (validators : List (String × (Request → Bool)))
    (req : Request) :
    securityHandler
        ((permitRoute basePath (securitySetup st) route
          methods).matcher.getD [])
        validators req (prefixRoute basePath route) m =
      .proceed [(PermittedFlag, .flag true)] := by
  show securityHandler (rmAddRoute basePath [] route methods) validators req
    (prefixRoute basePath route) m = .proceed [(PermittedFlag, .flag true)]
  have hkey : genMatchKey (prefixRoute basePath route) m ∈
      rmAddRoute basePath [] route methods :=
    (mem_foldl_cons (fun x => genMatchKey (prefixRoute basePath route) x)
      methods []).2 m hm
  have hne : genMatchKey (prefixRoute basePath route) m ≠ [] := by
    simp [genMatchKey]
  have hmm : rmMatch (rmAddRoute basePath [] route methods)
      (prefixRoute basePath route) m = true := by
    rw [rmMatch, Match, if_neg hne]
    rw [if_pos (List.elem_iff.mpr hkey)]
  rw [securityHandler, if_pos hmm]

/-- C6 witness: registering ("/health", GET) after setup bypasses a GET to
/health. -/
theorem permitRoute_after_setup_bypasses_witness :
    securityHandler
        ((permitRoute "" (securitySetup ⟨none⟩) "/health"
          ["GET"]).matcher.getD [])
        [] ⟨[], [], []⟩ (prefixRoute "" "/health") "GET" =
      .proceed [(PermittedFlag, .flag true)] :=
  permitRoute_after_setup_bypasses "" ⟨none⟩ "/health" ["GET"] "GET"
    (by decide) [] ⟨[], [], []⟩

/-- C7 counterexample: the standalone once-token middleware answers a path
mismatch with a 401 whose body spells out "once token path mismatch" — a
response that differs both from the Security orchestrator's bare 401 and
from the middleware's own response to a consumed token, so the mismatch is
externally distinguishable. -/
theorem once_token_mismatch_detail_C7 :
    (onceTokenHandler "once_token:" [("header", "X-Once-Token")]
        [("once_token:t", "/p")] ⟨[("X-Once-Token", "t")], [], []⟩
        "/other").1 =
      .abort 401
        (some "once token validation failed: once token path mismatch") ∧
    (HandlerOutcome.abort 401
        (some "once token validation failed: once token path mismatch") ≠
      HandlerOutcome.abort 401 none) ∧
    ("once token validation failed: once token path mismatch" ≠
      "once token validation failed: once token expired") := by
  decide

/-- C7 (amended): when no validator accepts a request, the Security
orchestrator aborts with a bare 401 carrying no body at all; the standalone
once-token middleware however aborts with a 401 whose JSON body names the
precise failure, so its path-mismatch rejection is externally
distinguishable. -/
theorem security_generic_once_detailed (wl : List Route)
    (validators : List (String × (Request → Bool))) (req : Request)
    (fullPath method : String)
    (hnm : rmMatch wl fullPath method = false)
    (hall : ∀ kv ∈ validators, kv.2 req = false)
    (keyPre : String) (lm : List (String × String)) (st : Store)
    (req2 : Request) (fp2 : String) (e : OTErr)
    (hot : (onceTokenValid keyPre lm st req2 fp2).1 = some e) :
    securityHandler wl validators req fullPath method = .abort 401 none ∧
    (onceTokenHandler keyPre lm st req2 fp2).1 =
      .abort 401 (some ("once token validation failed: " ++ otErrMsg e)) := by
  constructor
  · have hf : validators.find? (fun kv => kv.2 req) = none :=
      List.find?_eq_none.mpr (fun kv hkv => by simp [hall kv hkv])
    rw [securityHandler, if_neg (by simp [hnm]), hf]
  · rw [onceTokenHandler]
    rw [hot]

/-- C7 witness: the generic orchestrator rejection and the detailed
once-token rejection at concrete requests. -/
theorem security_generic_once_detailed_witness :
    securityHandler [] [] ⟨[], [], []⟩ "/x" "GET" = .abort 401 none ∧
    (onceTokenHandler "once_token:" [("header", "X-Once-Token")]
        [("once_token:t", "/p")] ⟨[("X-Once-Token", "t")], [], []⟩
        "/other").1 =
      .abort 401
        (some ("once token validation failed: " ++
          otErrMsg .pathMismatch)) :=
  security_generic_once_detailed [] [] ⟨[], [], []⟩ "/x" "GET" (by decide)
    (fun kv hkv => absurd hkv (List.not_mem_nil kv)) "once_token:"
    [("header", "X-Once-Token")] [("once_token:t", "/p")]
    ⟨[("X-Once-Token", "t")], [], []⟩ "/other" .pathMismatch (by decide)

end Gfa
